import Mathlib

/-!
Shallow embedding of the `spatial_app` Django application
(`models.py`, `serializers.py`, `views.py`).

Modelling conventions:
* Coordinates and float-valued fields are rationals (`ℚ`); Python float
  literals relevant to the claims (1e-10, 1000, 20, 100, 1000000) are exact
  dyadic/decimal rationals, so nothing is lost.
* The GEOS planar area of a polygon (`value.area` in the serializer,
  `transformed_geom.area` in `SpatialPolygonData.save`) is the standard
  shoelace computation: absolute shoelace area of the exterior ring minus
  the absolute shoelace areas of the interior rings.  Rings are stored the
  way GEOS stores linear rings, as closed coordinate sequences (first
  vertex repeated at the end).
* External spatial collaborators that are not part of this repository are
  abstracted as explicit function parameters: the WGS84 → Web-Mercator
  reprojection `T` (GDAL `transform(3857, clone=True)`), the GEOS topological
  validity test `gv` (`value.valid`), the database metric distance
  `dist` (`Distance`/`dwithin`) and the containment predicate `contains`
  (`geometry__contains`).
* HTTP query parameters that are fed to Python `float(...)` are modelled by
  `Param`: absent (`float(None)` raises `TypeError`), present but
  non-numeric (`float` raises `ValueError`), or a finite numeric value.
* Python `round(x, 2)` is modelled as rounding `100*x` to the nearest
  integer; claim-relevant behaviour (2-decimal quantisation, monotonicity)
  does not depend on the tie-breaking convention.
-/

namespace SpatialApp

/-- A coordinate pair: `x` is longitude, `y` is latitude (GEOS order). -/
structure Pt where
  x : ℚ
  y : ℚ
deriving DecidableEq, Repr

/-- A linear ring: a closed sequence of vertices (last = first, as stored by
GEOS; the closing duplicate is part of the list). -/
abbrev LinearRing := List Pt

/-- A polygon: exterior ring plus interior rings (holes). -/
structure Poly where
  outer : LinearRing
  holes : List LinearRing
deriving DecidableEq, Repr

/-- Twice the signed shoelace area of a coordinate sequence, summed over
consecutive edges.  On a closed ring this is twice the signed area. -/
def shoelace2 : List Pt → ℚ
  | [] => 0
  | [_] => 0
  | p :: q :: rest => (p.x * q.y - q.x * p.y) + shoelace2 (q :: rest)

/-- Absolute value on ℚ, written out so that it evaluates by kernel
reduction. -/
def rabs (q : ℚ) : ℚ := if q < 0 then -q else q

/-- GEOS area of a single ring: absolute value of the signed shoelace area. -/
def ringArea (r : LinearRing) : ℚ := rabs (shoelace2 r) / 2

/-- Total area of the interior rings of a polygon. -/
def holesArea (g : Poly) : ℚ := (g.holes.map ringArea).sum

/-- GEOS `Polygon.area`: exterior ring area minus interior ring areas. -/
def polyArea (g : Poly) : ℚ := ringArea g.outer - holesArea g

/-- A decoded GeoJSON geometry value as seen by the serializer's field-level
validators: a point, a polygon, or some other geometry type. -/
inductive Geom
  | point (p : Pt)
  | polygon (g : Poly)
  | other
deriving DecidableEq, Repr

/-- An HTTP query parameter destined for Python `float(...)`:
missing (`request.GET.get` returns `None`), present but not numeric,
or a finite numeric literal. -/
inductive Param
  | missing
  | nonNumeric
  | num (q : ℚ)
deriving DecidableEq, Repr

/-- `float(request.GET.get(key))`: `None` raises `TypeError`, a non-numeric
string raises `ValueError`, otherwise the parsed number. -/
def floatOf : Param → Option ℚ
  | .missing => none
  | .nonNumeric => none
  | .num q => some q

/-- `float(request.GET.get(key, default))`: a missing parameter falls back
to the default before parsing. -/
def floatOfD (p : Param) (d : ℚ) : Option ℚ :=
  match p with
  | .missing => some d
  | .nonNumeric => none
  | .num q => some q

/-- Python `round(x, 2)`: quantisation of `x` to 2 decimal places. -/
def round2 (q : ℚ) : ℚ := (round (q * 100) : ℚ) / 100

/-- Case-insensitive substring test, Django `name__icontains`. -/
def icontains (hay needle : String) : Bool :=
  decide (List.IsInfix needle.toLower.toList hay.toLower.toList)

/-! ## Stored records (`models.py`)

Only the fields some claim constrains are carried (`description` and
`properties` are opaque metadata touched by no claim).  `id` is a natural
number standing for the UUID primary key, `created_at` a logical clock
tick standing for the creation timestamp. -/

/-- A stored `SpatialPointData` row. -/
structure PointRec where
  id : ℕ
  name : String
  location : Pt
  is_active : Bool
  created_at : ℕ
deriving DecidableEq, Repr

/-- A stored `SpatialPolygonData` row.  `area` is `FloatField(null=True)`:
`none` until the model's `save` has computed it. -/
structure PolyRec where
  id : ℕ
  name : String
  geometry : Poly
  area : Option ℚ
  is_active : Bool
  created_at : ℕ
deriving DecidableEq, Repr

/-- The point table together with the id generator and clock. -/
structure PointStore where
  nextId : ℕ
  clock : ℕ
  rows : List PointRec
deriving Repr

/-- The polygon table together with the id generator and clock. -/
structure PolyStore where
  nextId : ℕ
  clock : ℕ
  rows : List PolyRec
deriving Repr

/-! ## Serializer validation (`serializers.py`) -/

/-- `SpatialPointDataSerializer.validate_location`: the decoded value must be
a `Point`, latitude in [-90, 90], longitude in [-180, 180]. -/
def validate_location : Geom → Except String Pt
  | .point p =>
    if ¬(-90 ≤ p.y ∧ p.y ≤ 90) then
      .error "Latitude must be between -90 and 90 degrees"
    else if ¬(-180 ≤ p.x ∧ p.x ≤ 180) then
      .error "Longitude must be between -180 and 180 degrees"
    else .ok p
  | _ => .error "Location must be a valid Point geometry"

/-- `SpatialPolygonDataSerializer.validate_geometry`: the decoded value must
be a `Polygon`, topologically valid (GEOS `value.valid`, abstracted as
`gv`), and of native-unit planar area at least 1e-10. -/
def validate_geometry (gv : Poly → Bool) : Geom → Except String Poly
  | .polygon g =>
    if ¬ gv g then .error "Invalid polygon geometry"
    else if polyArea g < 1 / 10 ^ 10 then .error "Polygon area is too small"
    else .ok g
  | _ => .error "Geometry must be a valid Polygon"

/-- `name` passes the `CharField(max_length=255,
validators=[MinLengthValidator(1)])` constraints. -/
def nameOk (n : String) : Bool := 1 ≤ n.length ∧ n.length ≤ 255

/-- A raw point payload handed to `SpatialPointDataSerializer(data=...)`.
`is_active` is optional (model default `True`). -/
structure RawPoint where
  name : String
  location : Geom
  is_active : Option Bool
deriving DecidableEq, Repr

/-- A raw polygon payload handed to `SpatialPolygonDataSerializer(data=...)`. -/
structure RawPolygon where
  name : String
  geometry : Geom
  is_active : Option Bool
deriving DecidableEq, Repr

/-- `SpatialPointDataSerializer(data=...).is_valid()` for a create payload. -/
def pointValid (it : RawPoint) : Bool :=
  nameOk it.name && (validate_location it.location).toBool

/-- `SpatialPolygonDataSerializer(data=...).is_valid()` for a create payload. -/
def polygonValid (gv : Poly → Bool) (it : RawPolygon) : Bool :=
  nameOk it.name && (validate_geometry gv it.geometry).toBool

/-- The validated `Point` of a valid payload (its decoded location). -/
def decodedPt (g : Geom) : Pt :=
  match g with
  | .point p => p
  | _ => ⟨0, 0⟩

/-- The validated `Polygon` of a valid payload (its decoded geometry). -/
def decodedPoly (g : Geom) : Poly :=
  match g with
  | .polygon g => g
  | _ => ⟨[], []⟩

/-! ## Model save (`models.py`) -/

/-- `SpatialPolygonData.save`: when the geometry is truthy (a GEOS polygon
with at least one ring), `area` is recomputed as the planar area of the
geometry reprojected to Web Mercator (EPSG:3857) by the collaborator `T`
(`self.geometry.transform(3857, clone=True)`, which leaves the stored
geometry untouched); otherwise `area` keeps its previous value. -/
def modelSaveArea (T : Poly → Poly) (g : Poly) (oldArea : Option ℚ) : Option ℚ :=
  if g.outer = [] then oldArea else some (polyArea (T g))

/-- Persist a new point row: fresh id, `created_at` from the clock. -/
def savePointRow (st : PointStore) (name : String) (loc : Pt) (act : Bool) :
    PointRec × PointStore :=
  let r : PointRec := ⟨st.nextId, name, loc, act, st.clock⟩
  (r, ⟨st.nextId + 1, st.clock + 1, st.rows ++ [r]⟩)

/-- Persist a new polygon row; the model's `save` computes `area`. -/
def savePolygonRow (T : Poly → Poly) (st : PolyStore) (name : String)
    (g : Poly) (act : Bool) : PolyRec × PolyStore :=
  let r : PolyRec := ⟨st.nextId, name, g, modelSaveArea T g none, act, st.clock⟩
  (r, ⟨st.nextId + 1, st.clock + 1, st.rows ++ [r]⟩)

/-! ## Views (`views.py`) -/

/-- Ascending order on the annotated `distance_m` (`order_by('distance_m')`). -/
def distOrd {α : Type} (a b : α × ℚ) : Prop := a.2 ≤ b.2

instance {α : Type} : DecidableRel (distOrd (α := α)) :=
  fun a b => inferInstanceAs (Decidable (a.2 ≤ b.2))

instance {α : Type} : IsTotal (α × ℚ) distOrd := ⟨fun a b => le_total a.2 b.2⟩

instance {α : Type} : IsTrans (α × ℚ) distOrd := ⟨fun _ _ _ h h2 => le_trans h h2⟩

/-- Descending `created_at` order on point rows (`order_by('-created_at')`). -/
def ptCreatedDesc (a b : PointRec) : Prop := b.created_at ≤ a.created_at

instance : DecidableRel ptCreatedDesc :=
  fun a b => inferInstanceAs (Decidable (b.created_at ≤ a.created_at))

instance : IsTotal PointRec ptCreatedDesc := ⟨fun a b => le_total b.created_at a.created_at⟩

instance : IsTrans PointRec ptCreatedDesc := ⟨fun _ _ _ h h2 => le_trans h2 h⟩

/-- Descending `created_at` order on polygon rows. -/
def pgCreatedDesc (a b : PolyRec) : Prop := b.created_at ≤ a.created_at

instance : DecidableRel pgCreatedDesc :=
  fun a b => inferInstanceAs (Decidable (b.created_at ≤ a.created_at))

instance : IsTotal PolyRec pgCreatedDesc := ⟨fun a b => le_total b.created_at a.created_at⟩

instance : IsTrans PolyRec pgCreatedDesc := ⟨fun _ _ _ h h2 => le_trans h2 h⟩

/-- `spatial_points_list_create`, GET branch: optional `name` (icontains,
skipped when empty/absent) and `is_active` (compared against the string
`"true"`, applied whenever the parameter is present) filters over the table
ordered by `created_at` descending. -/
def spatial_points_list (nameP activeP : Option String) (rows : List PointRec) :
    List PointRec :=
  let qs := List.insertionSort ptCreatedDesc rows
  let qs := match nameP with
    | some n => if n ≠ "" then qs.filter (fun r => icontains r.name n) else qs
    | none => qs
  match activeP with
  | some a => qs.filter (fun r => r.is_active == (a.toLower == "true"))
  | none => qs

/-- `spatial_points_list_create`, POST branch: validate, then save. -/
def spatial_points_create (it : RawPoint) (st : PointStore) :
    Except String (PointRec × PointStore) :=
  if pointValid it then
    .ok (savePointRow st it.name (decodedPt it.location) (it.is_active.getD true))
  else .error "validation errors"

/-- A partial or full update payload for a point. -/
structure PointPatch where
  name : Option String
  location : Option Geom
  is_active : Option Bool
deriving DecidableEq, Repr

/-- Serializer validity of a point update: with `partialFlag = false` (PUT)
required fields must be present; present fields are validated. -/
def pointPatchValid (partialFlag : Bool) (p : PointPatch) : Bool :=
  (match p.name with | none => partialFlag | some n => nameOk n) &&
  (match p.location with | none => partialFlag | some g => (validate_location g).toBool)

/-- Apply a validated point patch to a stored row. -/
def applyPointPatch (p : PointPatch) (r : PointRec) : PointRec :=
  { r with
    name := p.name.getD r.name
    location := match p.location with | some g => decodedPt g | none => r.location
    is_active := p.is_active.getD r.is_active }

/-- `get_object_or_404(SpatialPointData, id=point_id)`: lookup by primary
key, with no `is_active` filter. -/
def get_object_or_404_point (i : ℕ) (rows : List PointRec) : Option PointRec :=
  rows.find? (fun r => r.id == i)

/-- `get_object_or_404(SpatialPolygonData, id=polygon_id)`. -/
def get_object_or_404_polygon (i : ℕ) (rows : List PolyRec) : Option PolyRec :=
  rows.find? (fun r => r.id == i)

/-- `spatial_point_detail`, PUT/PATCH branch: 404 when the id is absent,
400 when validation fails, otherwise the patched row replaces the old one. -/
def spatial_point_update (partialFlag : Bool) (p : PointPatch) (i : ℕ)
    (st : PointStore) : Except String PointStore :=
  match get_object_or_404_point i st.rows with
  | none => .error "Not found"
  | some _ =>
    if pointPatchValid partialFlag p then
      .ok { st with
            rows := st.rows.map (fun r => if r.id == i then applyPointPatch p r else r) }
    else .error "validation errors"

/-- `spatial_points_nearby`: parse `lat`, `lng` and `distance` (default
1000), 400 on failure; otherwise the active points within `d` of the
search point (`dwithin`, metric distance `dist` supplied by the spatial
database), annotated with their distance, ordered ascending by it, the
reported distance rounded to 2 decimals. -/
def spatial_points_nearby (dist : Pt → Pt → ℚ) (latP lngP distP : Param)
    (rows : List PointRec) : Except String (List (PointRec × ℚ)) :=
  match floatOf latP, floatOf lngP, floatOfD distP 1000 with
  | some lat, some lng, some d =>
    let sp : Pt := ⟨lng, lat⟩
    let near := (rows.filter (fun r => decide (dist r.location sp ≤ d) && r.is_active)).map
      (fun r => (r, dist r.location sp))
    .ok ((List.insertionSort distOrd near).map (fun rd => (rd.1, round2 rd.2)))
  | _, _, _ => .error "Invalid parameters. lat, lng, and distance must be numbers"

/-! ## Bulk ingestion (`views.py`) -/

/-- A bulk request body: not a JSON object, an object without the expected
array field, that field not an array, or a list of raw items. -/
inductive ReqBody (α : Type)
  | notDict
  | missingKey
  | keyNotList
  | items (l : List α)

/-- HTTP status of a bulk response: 400, 201 or 207. -/
inductive BulkStatus
  | badRequest
  | allCreated
  | multiStatus
deriving DecidableEq, Repr

/-- The bulk response payload: counts, created items (in creation order) and
the indexes carried by the `validation_errors` entries. -/
structure BulkResp (α : Type) where
  status : BulkStatus
  created : ℕ
  errors : ℕ
  createdItems : List α
  validationErrors : List ℕ

/-- The per-item loop of both bulk views: `for i, data in enumerate(items)`,
valid items are saved and appended to the created list, invalid ones
contribute `{'index': i, 'errors': ...}`. -/
def bulkLoop {α σ : Type} (valid : α → Bool) (persist : α → σ → σ) :
    List α → ℕ → σ → List α × List ℕ × σ
  | [], _, st => ([], [], st)
  | x :: xs, i, st =>
    if valid x then
      let r := bulkLoop valid persist xs (i + 1) (persist x st)
      (x :: r.1, r.2.1, r.2.2)
    else
      let r := bulkLoop valid persist xs (i + 1) st
      (r.1, i :: r.2.1, r.2.2)

/-- `serializer.save()` for one bulk point item. -/
def persistPoint (it : RawPoint) (st : PointStore) : PointStore :=
  (savePointRow st it.name (decodedPt it.location) (it.is_active.getD true)).2

/-- `spatial_points_bulk_create`: envelope checks first (400 before any
per-item processing), then the per-item loop; 207 when any item failed,
201 otherwise. -/
def spatial_points_bulk_create (body : ReqBody RawPoint) (st : PointStore) :
    BulkResp RawPoint × PointStore :=
  match body with
  | .notDict => (⟨.badRequest, 0, 0, [], []⟩, st)
  | .missingKey => (⟨.badRequest, 0, 0, [], []⟩, st)
  | .keyNotList => (⟨.badRequest, 0, 0, [], []⟩, st)
  | .items l =>
    let r := bulkLoop pointValid persistPoint l 0 st
    (⟨if r.2.1.isEmpty then .allCreated else .multiStatus,
      r.1.length, r.2.1.length, r.1, r.2.1⟩, r.2.2)

/-- `serializer.save()` for one bulk polygon item. -/
def persistPolygon (T : Poly → Poly) (it : RawPolygon) (st : PolyStore) : PolyStore :=
  (savePolygonRow T st it.name (decodedPoly it.geometry) (it.is_active.getD true)).2

/-- `spatial_polygons_bulk_create`: same pipeline over polygon payloads. -/
def spatial_polygons_bulk_create (gv : Poly → Bool) (T : Poly → Poly)
    (body : ReqBody RawPolygon) (st : PolyStore) : BulkResp RawPolygon × PolyStore :=
  match body with
  | .notDict => (⟨.badRequest, 0, 0, [], []⟩, st)
  | .missingKey => (⟨.badRequest, 0, 0, [], []⟩, st)
  | .keyNotList => (⟨.badRequest, 0, 0, [], []⟩, st)
  | .items l =>
    let r := bulkLoop (polygonValid gv) (persistPolygon T) l 0 st
    (⟨if r.2.1.isEmpty then .allCreated else .multiStatus,
      r.1.length, r.2.1.length, r.1, r.2.1⟩, r.2.2)

/-! ## Polygon views (`views.py`) -/

/-- `spatial_polygons_list_create`, GET branch: `name` / `is_active` filters
as for points, plus inclusive `min_area` / `max_area` bounds on the stored
`area` column; an absent/empty bound is skipped and a non-numeric bound is
swallowed by `except ValueError: pass`.  SQL comparison against a NULL
`area` keeps the row out. -/
def spatial_polygons_list (nameP activeP : Option String) (minP maxP : Param)
    (rows : List PolyRec) : List PolyRec :=
  let qs := List.insertionSort pgCreatedDesc rows
  let qs := match nameP with
    | some n => if n ≠ "" then qs.filter (fun r => icontains r.name n) else qs
    | none => qs
  let qs := match activeP with
    | some a => qs.filter (fun r => r.is_active == (a.toLower == "true"))
    | none => qs
  let qs := match minP with
    | .num q => qs.filter (fun r => match r.area with
        | some a => decide (q ≤ a)
        | none => false)
    | _ => qs
  match maxP with
  | .num q => qs.filter (fun r => match r.area with
      | some a => decide (a ≤ q)
      | none => false)
  | _ => qs

/-- `spatial_polygons_list_create`, POST branch: validate, then save (the
model's `save` computes `area` from the reprojected geometry). -/
def spatial_polygons_create (gv : Poly → Bool) (T : Poly → Poly)
    (it : RawPolygon) (st : PolyStore) : Except String (PolyRec × PolyStore) :=
  if polygonValid gv it then
    .ok (savePolygonRow T st it.name (decodedPoly it.geometry) (it.is_active.getD true))
  else .error "validation errors"

/-- A partial or full update payload for a polygon. -/
structure PolyPatch where
  name : Option String
  geometry : Option Geom
  is_active : Option Bool
deriving DecidableEq, Repr

/-- Serializer validity of a polygon update: with `partialFlag = false`
(PUT) required fields must be present; present fields are validated. -/
def polyPatchValid (gv : Poly → Bool) (partialFlag : Bool) (p : PolyPatch) : Bool :=
  (match p.name with | none => partialFlag | some n => nameOk n) &&
  (match p.geometry with | none => partialFlag | some g => (validate_geometry gv g).toBool)

/-- Apply a validated polygon patch to a stored row; the model's `save`
recomputes `area` from the (possibly unchanged) geometry. -/
def applyPolyPatch (T : Poly → Poly) (p : PolyPatch) (r : PolyRec) : PolyRec :=
  let g := match p.geometry with | some gm => decodedPoly gm | none => r.geometry
  { r with
    name := p.name.getD r.name
    geometry := g
    area := modelSaveArea T g r.area
    is_active := p.is_active.getD r.is_active }

/-- `spatial_polygon_detail`, PUT/PATCH branch. -/
def spatial_polygon_update (gv : Poly → Bool) (T : Poly → Poly)
    (partialFlag : Bool) (p : PolyPatch) (i : ℕ) (st : PolyStore) :
    Except String PolyStore :=
  match get_object_or_404_polygon i st.rows with
  | none => .error "Not found"
  | some _ =>
    if polyPatchValid gv partialFlag p then
      .ok { st with
            rows := st.rows.map (fun r => if r.id == i then applyPolyPatch T p r else r) }
    else .error "validation errors"

/-- `spatial_polygons_containing_point`: parse `lat` and `lng` (400 on
failure), then the active polygons whose geometry contains the search point
(`geometry__contains`, predicate supplied by the spatial database). -/
def spatial_polygons_containing_point (contains : Poly → Pt → Bool)
    (latP lngP : Param) (rows : List PolyRec) : Except String (List PolyRec) :=
  match floatOf latP, floatOf lngP with
  | some lat, some lng =>
    .ok (rows.filter (fun r => contains r.geometry ⟨lng, lat⟩ && r.is_active))
  | _, _ => .error "Invalid parameters. lat and lng must be numbers"

/-! ## Summary and pagination (`views.py`) -/

/-- The `spatial_analysis_summary` payload (sans timestamp). -/
structure Summary where
  total_points : ℕ
  total_polygons : ℕ
  total_polygon_area_sqm : ℚ
  total_polygon_area_sqkm : ℚ
deriving DecidableEq, Repr

/-- `spatial_analysis_summary`: counts of active rows; `Sum('area')` over
the active polygons (SQL sum skips NULLs, `or 0` turns an empty aggregate
into 0), rounded to 2 decimals; the km² figure is the m² sum divided by
1,000,000 and rounded independently. -/
def spatial_analysis_summary (pts : List PointRec) (pgs : List PolyRec) : Summary :=
  let total := ((pgs.filter (fun r => r.is_active)).filterMap (fun r => r.area)).sum
  { total_points := (pts.filter (fun r => r.is_active)).length
    total_polygons := (pgs.filter (fun r => r.is_active)).length
    total_polygon_area_sqm := round2 total
    total_polygon_area_sqkm := round2 (total / 1000000) }

/-- DRF `PageNumberPagination.get_page_size` under the configuration of
`StandardResultsSetPagination` (`page_size = 20`, `page_size_query_param =
'page_size'`, `max_page_size = 100`): a missing or non-positive request
value falls back to the default 20, a positive integer is capped at 100.
The resolution rule is the pagination collaborator's documented contract;
the three constants are this repository's. -/
def getPageSize (p : Option ℕ) : ℕ :=
  match p with
  | none => 20
  | some n => if n = 0 then 20 else min n 100

/-- The rows of 1-based page `page` for a given page size. -/
def pageSlice {α : Type} (qs : List α) (page size : ℕ) : List α :=
  (qs.drop ((page - 1) * size)).take size

/-! ## Invariants -/

/-- The coordinate-range constraint enforced by `validate_location`. -/
def locOk (p : Pt) : Prop := -90 ≤ p.y ∧ p.y ≤ 90 ∧ -180 ≤ p.x ∧ p.x ≤ 180

instance (p : Pt) : Decidable (locOk p) := by unfold locOk; infer_instance

/-- Every stored point satisfies the location constraints. -/
def PointsOk (rows : List PointRec) : Prop := ∀ r ∈ rows, locOk r.location

/-- The polygon constraint enforced by `validate_geometry`: topologically
valid and of native-unit area at least 1e-10. -/
def geomOk (gv : Poly → Bool) (g : Poly) : Prop :=
  gv g = true ∧ 1 / 10 ^ 10 ≤ polyArea g

instance (gv : Poly → Bool) (g : Poly) : Decidable (geomOk gv g) := by
  unfold geomOk; infer_instance

/-- Every stored polygon satisfies the geometry constraints. -/
def PolysOk (gv : Poly → Bool) (rows : List PolyRec) : Prop :=
  ∀ r ∈ rows, geomOk gv r.geometry

/-- Every stored polygon's `area` is the planar area of its geometry
reprojected by `T`. -/
def AreaConsistent (T : Poly → Poly) (rows : List PolyRec) : Prop :=
  ∀ r ∈ rows, r.area = some (polyArea (T r.geometry))

/-! ## Helper lemmas: areas and validation -/

lemma rabs_nonneg (q : ℚ) : 0 ≤ rabs q := by
  unfold rabs
  split <;> linarith

lemma ringArea_nonneg (r : LinearRing) : 0 ≤ ringArea r :=
  div_nonneg (rabs_nonneg _) (by norm_num)

lemma holesArea_nonneg (g : Poly) : 0 ≤ holesArea g := by
  refine List.sum_nonneg ?_
  intro a ha
  rcases List.mem_map.mp ha with ⟨r, _, rfl⟩
  exact ringArea_nonneg r

lemma polyArea_le_outer (g : Poly) : polyArea g ≤ ringArea g.outer := by
  have h := holesArea_nonneg g
  unfold polyArea
  linarith

lemma geomOk_outer_ne (gv : Poly → Bool) (g : Poly) (h : geomOk gv g) :
    g.outer ≠ [] := by
  intro hnil
  have h2 := polyArea_le_outer g
  rw [hnil] at h2
  have : ringArea [] = 0 := by simp [ringArea, shoelace2, rabs]
  rw [this] at h2
  have := h.2
  have hpos : (0 : ℚ) < 1 / 10 ^ 10 := by norm_num
  linarith

lemma toBool_ok {ε α : Type} (a : α) : (Except.ok a : Except ε α).toBool = true := rfl

lemma toBool_error {ε α : Type} (e : ε) :
    (Except.error e : Except ε α).toBool = false := rfl

lemma validate_location_toBool (g : Geom) :
    (validate_location g).toBool = true ↔ ∃ p, g = .point p ∧ locOk p := by
  cases g with
  | point p =>
    simp only [validate_location]
    split_ifs with h1 h2
    · simp only [toBool_ok, true_iff]
      exact ⟨p, rfl, h1.1, h1.2, h2.1, h2.2⟩
    · simp only [toBool_error, Bool.false_eq_true, false_iff]
      rintro ⟨p', hp, hok⟩
      injection hp with hpp
      subst hpp
      exact h2 ⟨hok.2.2.1, hok.2.2.2⟩
    · simp only [toBool_error, Bool.false_eq_true, false_iff]
      rintro ⟨p', hp, hok⟩
      injection hp with hpp
      subst hpp
      exact h1 ⟨hok.1, hok.2.1⟩
  | polygon g => simp [validate_location, toBool_error]
  | other => simp [validate_location, toBool_error]

lemma validate_geometry_toBool (gv : Poly → Bool) (g : Geom) :
    (validate_geometry gv g).toBool = true ↔
      ∃ pg, g = .polygon pg ∧ geomOk gv pg := by
  cases g with
  | point p => simp [validate_geometry, toBool_error]
  | polygon pg =>
    simp only [validate_geometry]
    split_ifs with h1 h2
    · simp only [toBool_error, Bool.false_eq_true, false_iff]
      rintro ⟨pg', hp, hok⟩
      injection hp with hpp
      subst hpp
      exact absurd h2 (not_lt.mpr hok.2)
    · simp only [toBool_ok, true_iff]
      exact ⟨pg, rfl, h1, not_lt.mp h2⟩
    · simp only [toBool_error, Bool.false_eq_true, false_iff]
      rintro ⟨pg', hp, hok⟩
      injection hp with hpp
      subst hpp
      exact h1 hok.1
  | other => simp [validate_geometry, toBool_error]

lemma pointValid_loc (it : RawPoint) (h : pointValid it = true) :
    locOk (decodedPt it.location) := by
  unfold pointValid at h
  rw [Bool.and_eq_true] at h
  rcases h with ⟨_, hloc⟩
  rcases (validate_location_toBool it.location).mp hloc with ⟨p, hp, hok⟩
  rw [hp]
  simpa [decodedPt] using hok

lemma polygonValid_geom (gv : Poly → Bool) (it : RawPolygon)
    (h : polygonValid gv it = true) : geomOk gv (decodedPoly it.geometry) := by
  unfold polygonValid at h
  rw [Bool.and_eq_true] at h
  rcases h with ⟨_, hg⟩
  rcases (validate_geometry_toBool gv it.geometry).mp hg with ⟨pg, hp, hok⟩
  rw [hp]
  simpa [decodedPoly] using hok

/-! ## Helper lemmas: the bulk loop -/

/-- The indexes reported in `validation_errors`, enumerating from `i`. -/
def invalidIdxs {α : Type} (valid : α → Bool) : List α → ℕ → List ℕ
  | [], _ => []
  | x :: xs, i =>
    if valid x then invalidIdxs valid xs (i + 1)
    else i :: invalidIdxs valid xs (i + 1)

/-- Persist a sequence of items left to right. -/
def persistAll {α σ : Type} (persist : α → σ → σ) (l : List α) (st : σ) : σ :=
  l.foldl (fun s x => persist x s) st

lemma bulkLoop_eq {α σ : Type} (valid : α → Bool) (persist : α → σ → σ) :
    ∀ (l : List α) (i : ℕ) (st : σ),
      bulkLoop valid persist l i st =
        (l.filter valid, invalidIdxs valid l i, persistAll persist (l.filter valid) st)
  | [], _, _ => rfl
  | x :: xs, i, st => by
    by_cases h : valid x = true <;>
      simp [bulkLoop, invalidIdxs, List.filter_cons, persistAll, h,
        bulkLoop_eq valid persist xs (i + 1)]

lemma invalidIdxs_eq_nil {α : Type} (valid : α → Bool) :
    ∀ (l : List α) (i : ℕ),
      invalidIdxs valid l i = [] ↔ ∀ x ∈ l, valid x = true
  | [], i => by simp [invalidIdxs]
  | x :: xs, i => by
    by_cases h : valid x = true <;>
      simp [invalidIdxs, h, invalidIdxs_eq_nil valid xs (i + 1)]

lemma filter_single_invalid {α : Type} (valid : α → Bool) :
    ∀ (l : List α) (k : ℕ) (hk : k < l.length),
      valid (l.get ⟨k, hk⟩) = false →
      (∀ j (hj : j < l.length), j ≠ k → valid (l.get ⟨j, hj⟩) = true) →
      l.filter valid = l.eraseIdx k
  | [], k, hk, _, _ => absurd hk (by simp)
  | x :: xs, 0, _, hinv, _hval => by
    have hx : valid x = false := hinv
    have hall : ∀ a ∈ xs, valid a = true := by
      intro a ha
      rcases List.mem_iff_get.mp ha with ⟨⟨j, hj⟩, rfl⟩
      exact _hval (j + 1) (by simpa using Nat.succ_lt_succ hj) (Nat.succ_ne_zero j)
    simp [List.filter_cons, hx, List.filter_eq_self.mpr hall, List.eraseIdx]
  | x :: xs, k + 1, hk, hinv, hval => by
    have hx : valid x = true := hval 0 (Nat.succ_pos _) (Nat.succ_ne_zero k).symm
    have ih := filter_single_invalid valid xs k (by simpa using Nat.lt_of_succ_lt_succ hk)
      hinv (fun j hj hne =>
        hval (j + 1) (by simpa using Nat.succ_lt_succ hj) (fun he => hne (Nat.succ_injective he)))
    simp [List.filter_cons, hx, ih, List.eraseIdx]

lemma invalidIdxs_single {α : Type} (valid : α → Bool) :
    ∀ (l : List α) (k : ℕ) (i : ℕ) (hk : k < l.length),
      valid (l.get ⟨k, hk⟩) = false →
      (∀ j (hj : j < l.length), j ≠ k → valid (l.get ⟨j, hj⟩) = true) →
      invalidIdxs valid l i = [i + k]
  | [], k, i, hk, _, _ => absurd hk (by simp)
  | x :: xs, 0, i, _, hinv, hval => by
    have hx : valid x = false := hinv
    have hall : ∀ a ∈ xs, valid a = true := by
      intro a ha
      rcases List.mem_iff_get.mp ha with ⟨⟨j, hj⟩, rfl⟩
      exact hval (j + 1) (by simpa using Nat.succ_lt_succ hj) (Nat.succ_ne_zero j)
    have : invalidIdxs valid xs (i + 1) = [] := by
      rw [invalidIdxs_eq_nil]
      exact hall
    simp [invalidIdxs, hx, this]
  | x :: xs, k + 1, i, hk, hinv, hval => by
    have hx : valid x = true := hval 0 (Nat.succ_pos _) (Nat.succ_ne_zero k).symm
    have ih := invalidIdxs_single valid xs k (i + 1)
      (by simpa using Nat.lt_of_succ_lt_succ hk) hinv
      (fun j hj hne =>
        hval (j + 1) (by simpa using Nat.succ_lt_succ hj) (fun he => hne (Nat.succ_injective he)))
    rw [invalidIdxs, if_pos hx, ih]
    congr 1
    omega

/-- The payload-visible fields a point row is stored with. -/
def pointFields (r : PointRec) : String × Pt × Bool := (r.name, r.location, r.is_active)

/-- The stored fields a valid raw point produces. -/
def rawPointFields (it : RawPoint) : String × Pt × Bool :=
  (it.name, decodedPt it.location, it.is_active.getD true)

lemma persistAll_point_rows : ∀ (l : List RawPoint) (st : PointStore),
    (persistAll persistPoint l st).rows.map pointFields =
      st.rows.map pointFields ++ l.map rawPointFields
  | [], st => by simp [persistAll]
  | x :: xs, st => by
    have ih := persistAll_point_rows xs (persistPoint x st)
    simp only [persistAll, List.foldl_cons] at ih ⊢
    rw [ih]
    simp [persistPoint, savePointRow, pointFields, rawPointFields]

/-- The payload-visible fields a polygon row is stored with (`area`
included: it is derived by the model's `save`). -/
def polyFields (r : PolyRec) : String × Poly × Option ℚ × Bool :=
  (r.name, r.geometry, r.area, r.is_active)

/-- The stored fields a valid raw polygon produces under reprojection `T`. -/
def rawPolyFields (T : Poly → Poly) (it : RawPolygon) : String × Poly × Option ℚ × Bool :=
  (it.name, decodedPoly it.geometry,
    modelSaveArea T (decodedPoly it.geometry) none, it.is_active.getD true)

lemma persistAll_poly_rows (T : Poly → Poly) : ∀ (l : List RawPolygon) (st : PolyStore),
    (persistAll (persistPolygon T) l st).rows.map polyFields =
      st.rows.map polyFields ++ l.map (rawPolyFields T)
  | [], st => by simp [persistAll]
  | x :: xs, st => by
    have ih := persistAll_poly_rows T xs (persistPolygon T x st)
    simp only [persistAll, List.foldl_cons] at ih ⊢
    rw [ih]
    simp [persistPolygon, savePolygonRow, polyFields, rawPolyFields]

lemma find?_point_id : ∀ (rows : List PointRec) (r : PointRec),
    r ∈ rows → (rows.map PointRec.id).Nodup →
    get_object_or_404_point r.id rows = some r
  | [], r, hr, _ => absurd hr (List.not_mem_nil r)
  | x :: xs, r, hr, hnd => by
    unfold get_object_or_404_point
    rcases List.mem_cons.mp hr with rfl | hr2
    · exact List.find?_cons_of_pos _ (by simp)
    · have hne : (x.id == r.id) = false := by
        simp only [beq_eq_false_iff_ne, ne_eq]
        intro he
        have hmem : r.id ∈ xs.map PointRec.id := List.mem_map_of_mem _ hr2
        rw [← he] at hmem
        exact (List.nodup_cons.mp (by simpa using hnd)).1 hmem
      rw [List.find?_cons_of_neg _ (by simp [hne])]
      exact find?_point_id xs r hr2 (List.nodup_cons.mp (by simpa using hnd)).2

/-! ## Helper lemmas: invariant preservation -/

lemma PointsOk_persist (it : RawPoint) (st : PointStore)
    (hv : pointValid it = true) (h : PointsOk st.rows) :
    PointsOk (persistPoint it st).rows := by
  intro r hr
  simp only [persistPoint, savePointRow, List.mem_append, List.mem_singleton] at hr
  rcases hr with hr | rfl
  · exact h r hr
  · exact pointValid_loc it hv

lemma PointsOk_persistAll : ∀ (l : List RawPoint) (st : PointStore),
    (∀ it ∈ l, pointValid it = true) → PointsOk st.rows →
    PointsOk (persistAll persistPoint l st).rows
  | [], _, _, h => h
  | x :: xs, st, hv, h =>
    PointsOk_persistAll xs (persistPoint x st)
      (fun it hit => hv it (List.mem_cons_of_mem x hit))
      (PointsOk_persist x st (hv x (List.mem_cons_self x xs)) h)

lemma pointPatchValid_loc (pf : Bool) (p : PointPatch) (r : PointRec)
    (hv : pointPatchValid pf p = true) (h : locOk r.location) :
    locOk (applyPointPatch p r).location := by
  unfold pointPatchValid at hv
  rw [Bool.and_eq_true] at hv
  cases hl : p.location with
  | none => simpa [applyPointPatch, hl] using h
  | some g =>
    have h2 := hv.2
    rw [hl] at h2
    rcases (validate_location_toBool g).mp h2 with ⟨q, rfl, hok⟩
    simpa [applyPointPatch, hl, decodedPt] using hok

lemma geomOk_persist (gv : Poly → Bool) (T : Poly → Poly) (it : RawPolygon)
    (st : PolyStore) (hv : polygonValid gv it = true) (h : PolysOk gv st.rows) :
    PolysOk gv (persistPolygon T it st).rows := by
  intro r hr
  simp only [persistPolygon, savePolygonRow, List.mem_append, List.mem_singleton] at hr
  rcases hr with hr | rfl
  · exact h r hr
  · exact polygonValid_geom gv it hv

lemma PolysOk_persistAll (gv : Poly → Bool) (T : Poly → Poly) :
    ∀ (l : List RawPolygon) (st : PolyStore),
      (∀ it ∈ l, polygonValid gv it = true) → PolysOk gv st.rows →
      PolysOk gv (persistAll (persistPolygon T) l st).rows
  | [], _, _, h => h
  | x :: xs, st, hv, h =>
    PolysOk_persistAll gv T xs (persistPolygon T x st)
      (fun it hit => hv it (List.mem_cons_of_mem x hit))
      (geomOk_persist gv T x st (hv x (List.mem_cons_self x xs)) h)

lemma modelSaveArea_of_geomOk (gv : Poly → Bool) (T : Poly → Poly) (g : Poly)
    (h : geomOk gv g) (old : Option ℚ) :
    modelSaveArea T g old = some (polyArea (T g)) := by
  unfold modelSaveArea
  rw [if_neg (geomOk_outer_ne gv g h)]

lemma AreaConsistent_persist (gv : Poly → Bool) (T : Poly → Poly)
    (it : RawPolygon) (st : PolyStore) (hv : polygonValid gv it = true)
    (h : AreaConsistent T st.rows) : AreaConsistent T (persistPolygon T it st).rows := by
  intro r hr
  simp only [persistPolygon, savePolygonRow, List.mem_append, List.mem_singleton] at hr
  rcases hr with hr | rfl
  · exact h r hr
  · exact modelSaveArea_of_geomOk gv T _ (polygonValid_geom gv it hv) none

lemma AreaConsistent_persistAll (gv : Poly → Bool) (T : Poly → Poly) :
    ∀ (l : List RawPolygon) (st : PolyStore),
      (∀ it ∈ l, polygonValid gv it = true) → AreaConsistent T st.rows →
      AreaConsistent T (persistAll (persistPolygon T) l st).rows
  | [], _, _, h => h
  | x :: xs, st, hv, h =>
    AreaConsistent_persistAll gv T xs (persistPolygon T x st)
      (fun it hit => hv it (List.mem_cons_of_mem x hit))
      (AreaConsistent_persist gv T x st (hv x (List.mem_cons_self x xs)) h)

lemma applyPolyPatch_ok (gv : Poly → Bool) (T : Poly → Poly) (pf : Bool)
    (p : PolyPatch) (r : PolyRec) (hv : polyPatchValid gv pf p = true)
    (hg : geomOk gv r.geometry) :
    geomOk gv (applyPolyPatch T p r).geometry ∧
      (applyPolyPatch T p r).area =
        some (polyArea (T (applyPolyPatch T p r).geometry)) := by
  unfold polyPatchValid at hv
  rw [Bool.and_eq_true] at hv
  cases hl : p.geometry with
  | none =>
    have hgeom : (applyPolyPatch T p r).geometry = r.geometry := by
      simp [applyPolyPatch, hl]
    refine ⟨by rw [hgeom]; exact hg, ?_⟩
    rw [hgeom]
    simp only [applyPolyPatch, hl]
    exact modelSaveArea_of_geomOk gv T _ hg r.area
  | some gm =>
    have h2 := hv.2
    rw [hl] at h2
    rcases (validate_geometry_toBool gv gm).mp h2 with ⟨pg, rfl, hok⟩
    have hgeom : (applyPolyPatch T p r).geometry = pg := by
      simp [applyPolyPatch, hl, decodedPoly]
    refine ⟨by rw [hgeom]; exact hok, ?_⟩
    rw [hgeom]
    simp only [applyPolyPatch, hl, decodedPoly]
    exact modelSaveArea_of_geomOk gv T pg hok r.area

/-! ## Helper lemmas: nearby search -/

lemma round2_mono {a b : ℚ} (h : a ≤ b) : round2 a ≤ round2 b := by
  unfold round2
  have h1 : round (a * 100) ≤ round (b * 100) := by
    rw [round_eq, round_eq]
    exact Int.floor_mono (by linarith)
  have h2 : ((round (a * 100) : ℤ) : ℚ) ≤ ((round (b * 100) : ℤ) : ℚ) := by
    exact_mod_cast h1
  linarith

lemma nearby_ok (dist : Pt → Pt → ℚ) (a b d : ℚ) (dP : Param)
    (rows : List PointRec) (hd : floatOfD dP 1000 = some d) :
    spatial_points_nearby dist (.num a) (.num b) dP rows =
      .ok ((List.insertionSort distOrd
        ((rows.filter (fun r => decide (dist r.location ⟨b, a⟩ ≤ d) && r.is_active)).map
          (fun r => (r, dist r.location ⟨b, a⟩)))).map
            (fun rd => (rd.1, round2 rd.2))) := by
  unfold spatial_points_nearby
  rw [hd]
  rfl

lemma nearby_pairs_snd (dist : Pt → Pt → ℚ) (sp : Pt) (d : ℚ)
    (rows : List PointRec) :
    ∀ pr ∈ List.insertionSort distOrd
        ((rows.filter (fun r => decide (dist r.location sp ≤ d) && r.is_active)).map
          (fun r => (r, dist r.location sp))),
      pr.2 = dist pr.1.location sp := by
  intro pr hpr
  rw [List.mem_insertionSort] at hpr
  rcases List.mem_map.mp hpr with ⟨r, _, rfl⟩
  rfl

lemma nearby_mem (dist : Pt → Pt → ℚ) (a b d : ℚ) (dP : Param)
    (rows : List PointRec) (hd : floatOfD dP 1000 = some d)
    (out : List (PointRec × ℚ))
    (hout : spatial_points_nearby dist (.num a) (.num b) dP rows = .ok out) :
    ∀ r : PointRec, r ∈ out.map Prod.fst ↔
      r ∈ rows ∧ r.is_active = true ∧ dist r.location ⟨b, a⟩ ≤ d := by
  rw [nearby_ok dist a b d dP rows hd] at hout
  injection hout with hout
  subst hout
  intro r
  rw [List.map_map]
  constructor
  · intro hr
    rcases List.mem_map.mp hr with ⟨rd, hrd, rfl⟩
    rw [List.mem_insertionSort] at hrd
    rcases List.mem_map.mp hrd with ⟨r0, hr0, rfl⟩
    rw [List.mem_filter, Bool.and_eq_true, decide_eq_true_eq] at hr0
    exact ⟨hr0.1, hr0.2.2, hr0.2.1⟩
  · rintro ⟨hr, hact, hdist⟩
    refine List.mem_map.mpr ⟨(r, dist r.location ⟨b, a⟩), ?_, rfl⟩
    rw [List.mem_insertionSort]
    refine List.mem_map.mpr ⟨r, ?_, rfl⟩
    rw [List.mem_filter, Bool.and_eq_true, decide_eq_true_eq]
    exact ⟨hr, hdist, hact⟩

lemma nearby_round (dist : Pt → Pt → ℚ) (a b d : ℚ) (dP : Param)
    (rows : List PointRec) (hd : floatOfD dP 1000 = some d)
    (out : List (PointRec × ℚ))
    (hout : spatial_points_nearby dist (.num a) (.num b) dP rows = .ok out) :
    ∀ pr ∈ out, pr.2 = round2 (dist pr.1.location ⟨b, a⟩) := by
  rw [nearby_ok dist a b d dP rows hd] at hout
  injection hout with hout
  subst hout
  intro pr hpr
  rcases List.mem_map.mp hpr with ⟨rd, hrd, rfl⟩
  have := nearby_pairs_snd dist ⟨b, a⟩ d rows rd hrd
  simp [this]

lemma nearby_sorted (dist : Pt → Pt → ℚ) (a b d : ℚ) (dP : Param)
    (rows : List PointRec) (hd : floatOfD dP 1000 = some d)
    (out : List (PointRec × ℚ))
    (hout : spatial_points_nearby dist (.num a) (.num b) dP rows = .ok out) :
    List.Sorted (· ≤ ·) (out.map (fun pr => dist pr.1.location ⟨b, a⟩)) := by
  rw [nearby_ok dist a b d dP rows hd] at hout
  injection hout with hout
  subst hout
  rw [List.map_map]
  have hsort : List.Sorted distOrd (List.insertionSort distOrd
      ((rows.filter (fun r => decide (dist r.location ⟨b, a⟩ ≤ d) && r.is_active)).map
        (fun r => (r, dist r.location ⟨b, a⟩)))) :=
    List.sorted_insertionSort distOrd _
  unfold List.Sorted
  rw [List.pairwise_map]
  refine List.Pairwise.imp_of_mem ?_ hsort
  intro p q hp hq hpq
  have h1 := nearby_pairs_snd dist ⟨b, a⟩ d rows p hp
  have h2 := nearby_pairs_snd dist ⟨b, a⟩ d rows q hq
  show dist p.1.location ⟨b, a⟩ ≤ dist q.1.location ⟨b, a⟩
  rw [← h1, ← h2]
  exact hpq

lemma nearby_error (dist : Pt → Pt → ℚ) (latP lngP dP : Param)
    (rows : List PointRec)
    (h : floatOf latP = none ∨ floatOf lngP = none ∨ floatOfD dP 1000 = none) :
    spatial_points_nearby dist latP lngP dP rows =
      .error "Invalid parameters. lat, lng, and distance must be numbers" := by
  unfold spatial_points_nearby
  rcases h with h | h | h <;>
    cases hl : floatOf latP <;> cases hg : floatOf lngP <;> cases hdd : floatOfD dP 1000 <;>
      simp_all

/-! ## Helper lemmas: list views and active-only queries -/

lemma areaGe_iff (q : ℚ) (r : PolyRec) :
    ((match r.area with | some a => decide (q ≤ a) | none => false) = true) ↔
      ∃ a, r.area = some a ∧ q ≤ a := by
  cases r.area <;> simp

lemma areaLe_iff (q : ℚ) (r : PolyRec) :
    ((match r.area with | some a => decide (a ≤ q) | none => false) = true) ↔
      ∃ a, r.area = some a ∧ a ≤ q := by
  cases r.area <;> simp

lemma points_list_mem (nameP activeP : Option String) (rows : List PointRec)
    (r : PointRec) :
    r ∈ spatial_points_list nameP activeP rows ↔
      r ∈ rows ∧
      (match nameP with
       | some n => n = "" ∨ icontains r.name n = true
       | none => True) ∧
      (match activeP with
       | some a => r.is_active = (a.toLower == "true")
       | none => True) := by
  unfold spatial_points_list
  cases nameP with
  | none =>
    cases activeP with
    | none => simp [List.mem_insertionSort]
    | some a => simp [List.mem_filter, List.mem_insertionSort]
  | some n =>
    by_cases hn : n = ""
    · cases activeP with
      | none => simp [hn, List.mem_insertionSort]
      | some a => simp [hn, List.mem_filter, List.mem_insertionSort]
    · cases activeP with
      | none => simp [hn, List.mem_filter, List.mem_insertionSort]
      | some a =>
        simp [hn, List.mem_filter, List.mem_insertionSort, and_assoc]
        intro _
        tauto

lemma polygons_list_mem (nameP activeP : Option String) (minP maxP : Param)
    (rows : List PolyRec) (r : PolyRec) :
    r ∈ spatial_polygons_list nameP activeP minP maxP rows ↔
      r ∈ rows ∧
      (match nameP with
       | some n => n = "" ∨ icontains r.name n = true
       | none => True) ∧
      (match activeP with
       | some a => r.is_active = (a.toLower == "true")
       | none => True) ∧
      (match minP with
       | .num q => ∃ a, r.area = some a ∧ q ≤ a
       | _ => True) ∧
      (match maxP with
       | .num q => ∃ a, r.area = some a ∧ a ≤ q
       | _ => True) := by
  unfold spatial_polygons_list
  cases nameP with
  | none =>
    cases activeP <;> cases minP <;> cases maxP <;>
      simp [List.mem_filter, List.mem_insertionSort, areaGe_iff, areaLe_iff, and_assoc] <;>
        intro _ <;> tauto
  | some n =>
    by_cases hn : n = "" <;>
      cases activeP <;> cases minP <;> cases maxP <;>
        simp [hn, List.mem_filter, List.mem_insertionSort, areaGe_iff, areaLe_iff,
          and_assoc] <;>
          intro _ <;> tauto

lemma points_list_sorted (nameP activeP : Option String) (rows : List PointRec) :
    List.Sorted ptCreatedDesc (spatial_points_list nameP activeP rows) := by
  unfold spatial_points_list
  have h := List.sorted_insertionSort ptCreatedDesc rows
  cases nameP with
  | none =>
    cases activeP with
    | none => exact h
    | some a => exact h.filter _
  | some n =>
    by_cases hn : n = ""
    · cases activeP with
      | none => simpa [hn] using h
      | some a => simp only [hn, ne_eq, not_true_eq_false, if_false]; exact h.filter _
    · cases activeP with
      | none => simp only [ne_eq, hn, not_false_eq_true, if_true]; exact h.filter _
      | some a =>
        simp only [ne_eq, hn, not_false_eq_true, if_true]
        exact (h.filter _).filter _

lemma polygons_list_sorted (nameP activeP : Option String) (minP maxP : Param)
    (rows : List PolyRec) :
    List.Sorted pgCreatedDesc (spatial_polygons_list nameP activeP minP maxP rows) := by
  unfold spatial_polygons_list
  have h := List.sorted_insertionSort pgCreatedDesc rows
  have step : ∀ (qs : List PolyRec), List.Sorted pgCreatedDesc qs →
      ∀ (p : PolyRec → Bool), List.Sorted pgCreatedDesc (qs.filter p) :=
    fun qs hqs p => hqs.filter p
  cases nameP with
  | none =>
    cases activeP <;> cases minP <;> cases maxP <;>
      first
        | exact h
        | exact step _ h _
        | exact step _ (step _ h _) _
        | exact step _ (step _ (step _ h _) _) _
  | some n =>
    by_cases hn : n = "" <;>
      simp only [ne_eq, hn, not_true_eq_false, not_false_eq_true, if_true, if_false] <;>
        cases activeP <;> cases minP <;> cases maxP <;>
          first
            | exact h
            | exact step _ h _
            | exact step _ (step _ h _) _
            | exact step _ (step _ (step _ h _) _) _
            | exact step _ (step _ (step _ (step _ h _) _) _) _

lemma nearby_active (dist : Pt → Pt → ℚ) (latP lngP dP : Param)
    (rows : List PointRec) (out : List (PointRec × ℚ))
    (h : spatial_points_nearby dist latP lngP dP rows = .ok out) :
    ∀ pr ∈ out, pr.1.is_active = true := by
  unfold spatial_points_nearby at h
  split at h
  · injection h with h1
    subst h1
    intro pr hpr
    rcases List.mem_map.mp hpr with ⟨rd, hrd, rfl⟩
    rw [List.mem_insertionSort] at hrd
    rcases List.mem_map.mp hrd with ⟨r0, hr0, rfl⟩
    have h2 := (List.mem_filter.mp hr0).2
    rw [Bool.and_eq_true] at h2
    exact h2.2
  · cases h

lemma containing_active (contains : Poly → Pt → Bool) (latP lngP : Param)
    (rows : List PolyRec) (out : List PolyRec)
    (h : spatial_polygons_containing_point contains latP lngP rows = .ok out) :
    ∀ r ∈ out, r.is_active = true := by
  unfold spatial_polygons_containing_point at h
  split at h
  · injection h with h1
    subst h1
    intro r hr
    have h2 := (List.mem_filter.mp hr).2
    rw [Bool.and_eq_true] at h2
    exact h2.2
  · cases h

lemma filterMap_area_sum : ∀ (l : List PolyRec),
    (l.filterMap (fun r => r.area)).sum = (l.map (fun r => r.area.getD 0)).sum
  | [] => rfl
  | x :: xs => by
    cases hx : x.area <;>
      simp [List.filterMap_cons, hx, filterMap_area_sum xs]

/-! ## Update helper lemmas -/

lemma update_point_rows (pf : Bool) (p : PointPatch) (i : ℕ)
    (st st2 : PointStore) (hu : spatial_point_update pf p i st = .ok st2) :
    pointPatchValid pf p = true ∧
      st2.rows = st.rows.map (fun r => if r.id == i then applyPointPatch p r else r) := by
  unfold spatial_point_update at hu
  cases hfind : get_object_or_404_point i st.rows with
  | none => rw [hfind] at hu; cases hu
  | some r0 =>
    rw [hfind] at hu
    by_cases hv : pointPatchValid pf p = true
    · rw [if_pos hv] at hu
      injection hu with hu
      exact ⟨hv, by rw [← hu]⟩
    · rw [if_neg hv] at hu
      cases hu

lemma update_poly_rows (gv : Poly → Bool) (T : Poly → Poly) (pf : Bool)
    (p : PolyPatch) (i : ℕ) (st st2 : PolyStore)
    (hu : spatial_polygon_update gv T pf p i st = .ok st2) :
    polyPatchValid gv pf p = true ∧
      st2.rows = st.rows.map (fun r => if r.id == i then applyPolyPatch T p r else r) := by
  unfold spatial_polygon_update at hu
  cases hfind : get_object_or_404_polygon i st.rows with
  | none => rw [hfind] at hu; cases hu
  | some r0 =>
    rw [hfind] at hu
    by_cases hv : polyPatchValid gv pf p = true
    · rw [if_pos hv] at hu
      injection hu with hu
      exact ⟨hv, by rw [← hu]⟩
    · rw [if_neg hv] at hu
      cases hu

/-! ## Concrete sample data (used by witnesses and counterexamples) -/

/-- A closed unit-square ring. -/
def sqRing : LinearRing := [⟨0, 0⟩, ⟨1, 0⟩, ⟨1, 1⟩, ⟨0, 1⟩, ⟨0, 0⟩]

/-- The unit-square polygon (no holes). -/
def sqPoly : Poly := ⟨sqRing, []⟩

/-- A valid raw point payload. -/
def okPt : RawPoint := ⟨"a", .point ⟨1, 2⟩, none⟩

/-- An invalid raw point payload (latitude 91 out of range). -/
def badPt : RawPoint := ⟨"b", .point ⟨0, 91⟩, none⟩

/-- A valid raw polygon payload. -/
def okPg : RawPolygon := ⟨"a", .polygon sqPoly, none⟩

/-- An invalid raw polygon payload (not a polygon geometry). -/
def badPg : RawPolygon := ⟨"b", .other, none⟩

/-- A stored, deactivated point row. -/
def inactivePointRow : PointRec := ⟨0, "p", ⟨0, 0⟩, false, 0⟩

/-- A stored, deactivated polygon row. -/
def inactivePolyRow : PolyRec := ⟨0, "g", sqPoly, some 1, false, 0⟩

/-- A concrete metric used to instantiate the abstract database distance. -/
def taxiDist (p q : Pt) : ℚ := rabs (p.x - q.x) + rabs (p.y - q.y)

/-! ## Claims -/

/-- C1: on every successful polygon create or update the stored `area`
equals the planar area of the stored geometry reprojected to Web Mercator
by the GDAL collaborator `T` (never the area of the raw angular
coordinates), so `area` stays consistent with the stored `geometry`; and
the planar area is non-negative whenever the reprojected polygon is
well-formed (its holes do not out-measure its exterior ring — the
collaborator contract for valid input). -/
theorem claim_C1_area_from_reprojection (gv : Poly → Bool) (T : Poly → Poly)
    (st : PolyStore) (hok : PolysOk gv st.rows) (hcons : AreaConsistent T st.rows) :
    (∀ it r st2, spatial_polygons_create gv T it st = .ok (r, st2) →
      AreaConsistent T st2.rows ∧ r.area = some (polyArea (T r.geometry))) ∧
    (∀ pf p i st2, spatial_polygon_update gv T pf p i st = .ok st2 →
      AreaConsistent T st2.rows) ∧
    (∀ body resp st2, spatial_polygons_bulk_create gv T body st = (resp, st2) →
      AreaConsistent T st2.rows) ∧
    (∀ g : Poly, holesArea g ≤ ringArea g.outer → 0 ≤ polyArea g) := by
  refine ⟨?_, ?_, ?_, ?_⟩
  · intro it r st2 h
    unfold spatial_polygons_create at h
    by_cases hv : polygonValid gv it = true
    · rw [if_pos hv] at h
      injection h with h1
      have hst : st2 =
          (savePolygonRow T st it.name (decodedPoly it.geometry) (it.is_active.getD true)).2 :=
        (congrArg Prod.snd h1).symm
      have hr : r =
          (savePolygonRow T st it.name (decodedPoly it.geometry) (it.is_active.getD true)).1 :=
        (congrArg Prod.fst h1).symm
      constructor
      · rw [hst]
        exact AreaConsistent_persist gv T it st hv hcons
      · rw [hr]
        exact modelSaveArea_of_geomOk gv T _ (polygonValid_geom gv it hv) none
    · rw [if_neg hv] at h
      cases h
  · intro pf p i st2 h
    rcases update_poly_rows gv T pf p i st st2 h with ⟨hv, hrows⟩
    rw [hrows]
    intro r hr
    rcases List.mem_map.mp hr with ⟨r0, hr0, rfl⟩
    by_cases hid : (r0.id == i) = true
    · rw [if_pos hid]
      exact (applyPolyPatch_ok gv T pf p r0 hv (hok r0 hr0)).2
    · rw [if_neg hid]
      exact hcons r0 hr0
  · intro body resp st2 h
    cases body with
    | notDict =>
      injection h with h1 h2
      rw [← h2]
      exact hcons
    | missingKey =>
      injection h with h1 h2
      rw [← h2]
      exact hcons
    | keyNotList =>
      injection h with h1 h2
      rw [← h2]
      exact hcons
    | items l =>
      unfold spatial_polygons_bulk_create at h
      dsimp only [] at h
      rw [bulkLoop_eq] at h
      injection h with h1 h2
      rw [← h2]
      exact AreaConsistent_persistAll gv T (l.filter (polygonValid gv)) st
        (fun it hit => List.of_mem_filter hit) hcons
  · intro g hg
    unfold polyArea
    linarith

/-- C1 witness: the hypotheses are satisfiable (identity reprojection,
trivially-true validity test, empty store) and the theorem applies there. -/
theorem claim_C1_witness :
    PolysOk (fun _ => true) (PolyStore.mk 0 0 []).rows ∧
    AreaConsistent (fun g => g) (PolyStore.mk 0 0 []).rows ∧
    (∀ it r st2,
      spatial_polygons_create (fun _ => true) (fun g => g) it ⟨0, 0, []⟩ = .ok (r, st2) →
      AreaConsistent (fun g => g) st2.rows ∧ r.area = some (polyArea ((fun g => g) r.geometry))) :=
  ⟨fun r hr => absurd hr (List.not_mem_nil r),
   fun r hr => absurd hr (List.not_mem_nil r),
   (claim_C1_area_from_reprojection (fun _ => true) (fun g => g) ⟨0, 0, []⟩
     (fun r hr => absurd hr (List.not_mem_nil r))
     (fun r hr => absurd hr (List.not_mem_nil r))).1⟩

/-- C2: validation runs before persistence on every write path and exactly
enforces the documented point and polygon constraints, so every stored
geometry satisfies them: point locations are points with latitude in
[-90, 90] and longitude in [-180, 180]; polygon geometries are polygons,
topologically valid, with native-unit planar area at least 1e-10. -/
theorem claim_C2_validation_invariant (gv : Poly → Bool) (T : Poly → Poly)
    (stp : PointStore) (stg : PolyStore)
    (hpt : PointsOk stp.rows) (hpg : PolysOk gv stg.rows) :
    (∀ g, (validate_location g).toBool = true ↔ ∃ p, g = .point p ∧ locOk p) ∧
    (∀ g, (validate_geometry gv g).toBool = true ↔ ∃ pg, g = .polygon pg ∧ geomOk gv pg) ∧
    (∀ it, pointValid it = false → spatial_points_create it stp = .error "validation errors") ∧
    (∀ it, polygonValid gv it = false →
      spatial_polygons_create gv T it stg = .error "validation errors") ∧
    (∀ it r st2, spatial_points_create it stp = .ok (r, st2) → PointsOk st2.rows) ∧
    (∀ pf p i st2, spatial_point_update pf p i stp = .ok st2 → PointsOk st2.rows) ∧
    (∀ body resp st2, spatial_points_bulk_create body stp = (resp, st2) → PointsOk st2.rows) ∧
    (∀ it r st2, spatial_polygons_create gv T it stg = .ok (r, st2) → PolysOk gv st2.rows) ∧
    (∀ pf p i st2, spatial_polygon_update gv T pf p i stg = .ok st2 → PolysOk gv st2.rows) ∧
    (∀ body resp st2, spatial_polygons_bulk_create gv T body stg = (resp, st2) →
      PolysOk gv st2.rows) := by
  refine ⟨validate_location_toBool, validate_geometry_toBool gv, ?_, ?_, ?_, ?_, ?_, ?_, ?_, ?_⟩
  · intro it hv
    unfold spatial_points_create
    rw [if_neg (by rw [hv]; exact Bool.false_ne_true)]
  · intro it hv
    unfold spatial_polygons_create
    rw [if_neg (by rw [hv]; exact Bool.false_ne_true)]
  · intro it r st2 h
    unfold spatial_points_create at h
    by_cases hv : pointValid it = true
    · rw [if_pos hv] at h
      injection h with h1
      have hst : st2 =
          (savePointRow stp it.name (decodedPt it.location) (it.is_active.getD true)).2 :=
        (congrArg Prod.snd h1).symm
      rw [hst]
      exact PointsOk_persist it stp hv hpt
    · rw [if_neg hv] at h
      cases h
  · intro pf p i st2 h
    rcases update_point_rows pf p i stp st2 h with ⟨hv, hrows⟩
    rw [hrows]
    intro r hr
    rcases List.mem_map.mp hr with ⟨r0, hr0, rfl⟩
    by_cases hid : (r0.id == i) = true
    · rw [if_pos hid]
      exact pointPatchValid_loc pf p r0 hv (hpt r0 hr0)
    · rw [if_neg hid]
      exact hpt r0 hr0
  · intro body resp st2 h
    cases body with
    | notDict => injection h with h1 h2; rw [← h2]; exact hpt
    | missingKey => injection h with h1 h2; rw [← h2]; exact hpt
    | keyNotList => injection h with h1 h2; rw [← h2]; exact hpt
    | items l =>
      unfold spatial_points_bulk_create at h
      dsimp only [] at h
      rw [bulkLoop_eq] at h
      injection h with h1 h2
      rw [← h2]
      exact PointsOk_persistAll (l.filter pointValid) stp
        (fun it hit => List.of_mem_filter hit) hpt
  · intro it r st2 h
    unfold spatial_polygons_create at h
    by_cases hv : polygonValid gv it = true
    · rw [if_pos hv] at h
      injection h with h1
      have hst : st2 =
          (savePolygonRow T stg it.name (decodedPoly it.geometry) (it.is_active.getD true)).2 :=
        (congrArg Prod.snd h1).symm
      rw [hst]
      exact geomOk_persist gv T it stg hv hpg
    · rw [if_neg hv] at h
      cases h
  · intro pf p i st2 h
    rcases update_poly_rows gv T pf p i stg st2 h with ⟨hv, hrows⟩
    rw [hrows]
    intro r hr
    rcases List.mem_map.mp hr with ⟨r0, hr0, rfl⟩
    by_cases hid : (r0.id == i) = true
    · rw [if_pos hid]
      exact (applyPolyPatch_ok gv T pf p r0 hv (hpg r0 hr0)).1
    · rw [if_neg hid]
      exact hpg r0 hr0
  · intro body resp st2 h
    cases body with
    | notDict => injection h with h1 h2; rw [← h2]; exact hpg
    | missingKey => injection h with h1 h2; rw [← h2]; exact hpg
    | keyNotList => injection h with h1 h2; rw [← h2]; exact hpg
    | items l =>
      unfold spatial_polygons_bulk_create at h
      dsimp only [] at h
      rw [bulkLoop_eq] at h
      injection h with h1 h2
      rw [← h2]
      exact PolysOk_persistAll gv T (l.filter (polygonValid gv)) stg
        (fun it hit => List.of_mem_filter hit) hpg

/-- C2 witness: the invariant hypotheses hold for empty stores and the
theorem applies there. -/
theorem claim_C2_witness :
    PointsOk (PointStore.mk 0 0 []).rows ∧
    (∀ it r st2, spatial_points_create it ⟨0, 0, []⟩ = .ok (r, st2) → PointsOk st2.rows) :=
  ⟨fun r hr => absurd hr (List.not_mem_nil r),
   (claim_C2_validation_invariant (fun _ => true) (fun g => g) ⟨0, 0, []⟩ ⟨0, 0, []⟩
     (fun r hr => absurd hr (List.not_mem_nil r))
     (fun r hr => absurd hr (List.not_mem_nil r))).2.2.2.2.1⟩

lemma length_eraseIdx_lt {α : Type} : ∀ (l : List α) (k : ℕ), k < l.length →
    (l.eraseIdx k).length = l.length - 1
  | [], k, hk => absurd hk (by simp)
  | _ :: _, 0, _ => by simp [List.eraseIdx]
  | x :: xs, k + 1, hk => by
    have hk2 : k < xs.length := by
      have := Nat.lt_of_succ_lt_succ (by simpa using hk)
      simpa using this
    simp only [List.eraseIdx, List.length_cons, length_eraseIdx_lt xs k hk2]
    omega

/-- C3: in a bulk batch where exactly the item at input position `k` fails
validation, the response counts `created = N - 1`, `errors = 1`, its
`validation_errors` hold exactly index `k`, the created items are the input
minus position `k` in input order, and exactly those items are persisted,
appended to the table in input order.  Stated for both the point and the
polygon bulk endpoints. -/
theorem claim_C3_bulk_single_invalid (gv : Poly → Bool) (T : Poly → Poly)
    (l : List RawPoint) (pl : List RawPolygon) (stp : PointStore) (stg : PolyStore)
    (k kp : ℕ) (hk : k < l.length) (hkp : kp < pl.length)
    (hinv : pointValid (l.get ⟨k, hk⟩) = false)
    (hval : ∀ j (hj : j < l.length), j ≠ k → pointValid (l.get ⟨j, hj⟩) = true)
    (hinvp : polygonValid gv (pl.get ⟨kp, hkp⟩) = false)
    (hvalp : ∀ j (hj : j < pl.length), j ≠ kp → polygonValid gv (pl.get ⟨j, hj⟩) = true) :
    ((spatial_points_bulk_create (.items l) stp).1.created = l.length - 1 ∧
     (spatial_points_bulk_create (.items l) stp).1.errors = 1 ∧
     (spatial_points_bulk_create (.items l) stp).1.validationErrors = [k] ∧
     (spatial_points_bulk_create (.items l) stp).1.createdItems = l.eraseIdx k ∧
     (spatial_points_bulk_create (.items l) stp).2.rows.map pointFields =
       stp.rows.map pointFields ++ (l.eraseIdx k).map rawPointFields) ∧
    ((spatial_polygons_bulk_create gv T (.items pl) stg).1.created = pl.length - 1 ∧
     (spatial_polygons_bulk_create gv T (.items pl) stg).1.errors = 1 ∧
     (spatial_polygons_bulk_create gv T (.items pl) stg).1.validationErrors = [kp] ∧
     (spatial_polygons_bulk_create gv T (.items pl) stg).1.createdItems = pl.eraseIdx kp ∧
     (spatial_polygons_bulk_create gv T (.items pl) stg).2.rows.map polyFields =
       stg.rows.map polyFields ++ (pl.eraseIdx kp).map (rawPolyFields T)) := by
  have hfil := filter_single_invalid pointValid l k hk hinv hval
  have hidx := invalidIdxs_single pointValid l k 0 hk hinv hval
  have hfilp := filter_single_invalid (polygonValid gv) pl kp hkp hinvp hvalp
  have hidxp := invalidIdxs_single (polygonValid gv) pl kp 0 hkp hinvp hvalp
  have hbl : spatial_points_bulk_create (.items l) stp =
      (⟨if (invalidIdxs pointValid l 0).isEmpty then .allCreated else .multiStatus,
        (l.filter pointValid).length, (invalidIdxs pointValid l 0).length,
        l.filter pointValid, invalidIdxs pointValid l 0⟩,
       persistAll persistPoint (l.filter pointValid) stp) := by
    unfold spatial_points_bulk_create
    dsimp only []
    rw [bulkLoop_eq]
  have hbp : spatial_polygons_bulk_create gv T (.items pl) stg =
      (⟨if (invalidIdxs (polygonValid gv) pl 0).isEmpty then .allCreated else .multiStatus,
        (pl.filter (polygonValid gv)).length, (invalidIdxs (polygonValid gv) pl 0).length,
        pl.filter (polygonValid gv), invalidIdxs (polygonValid gv) pl 0⟩,
       persistAll (persistPolygon T) (pl.filter (polygonValid gv)) stg) := by
    unfold spatial_polygons_bulk_create
    dsimp only []
    rw [bulkLoop_eq]
  refine ⟨⟨?_, ?_, ?_, ?_, ?_⟩, ?_, ?_, ?_, ?_, ?_⟩
  · rw [hbl]
    dsimp only []
    rw [hfil, length_eraseIdx_lt l k hk]
  · rw [hbl]
    dsimp only []
    rw [hidx]
    simp
  · rw [hbl]
    dsimp only []
    rw [hidx]
    simp
  · rw [hbl]
    dsimp only []
    exact hfil
  · rw [hbl]
    dsimp only []
    rw [persistAll_point_rows, hfil]
  · rw [hbp]
    dsimp only []
    rw [hfilp, length_eraseIdx_lt pl kp hkp]
  · rw [hbp]
    dsimp only []
    rw [hidxp]
    simp
  · rw [hbp]
    dsimp only []
    rw [hidxp]
    simp
  · rw [hbp]
    dsimp only []
    exact hfilp
  · rw [hbp]
    dsimp only []
    rw [persistAll_poly_rows, hfilp]

lemma polyArea_sqPoly : polyArea sqPoly = 1 := by
  norm_num [polyArea, ringArea, holesArea, shoelace2, rabs, sqPoly, sqRing]

lemma polygonValid_okPg (gv : Poly → Bool) (h : gv sqPoly = true) :
    polygonValid gv okPg = true := by
  unfold polygonValid okPg
  rw [Bool.and_eq_true]
  refine ⟨by decide, ?_⟩
  rw [validate_geometry_toBool]
  exact ⟨sqPoly, rfl, h, by rw [polyArea_sqPoly]; norm_num⟩

lemma badPg_okPg_tail_valid : ∀ j (hj : j < ([badPg, okPg] : List RawPolygon).length),
    j ≠ 0 → polygonValid (fun _ => true) ([badPg, okPg].get ⟨j, hj⟩) = true := by
  intro j hj hne
  have hj2 : j < 2 := by simpa using hj
  interval_cases j
  · exact absurd rfl hne
  · exact polygonValid_okPg _ rfl

/-- C3 witness: a two-item point batch whose second item is invalid and a
two-item polygon batch whose first item is invalid behave as stated. -/
theorem claim_C3_witness :
    (spatial_points_bulk_create (.items [okPt, badPt]) ⟨0, 0, []⟩).1.created = 1 ∧
    (spatial_points_bulk_create (.items [okPt, badPt]) ⟨0, 0, []⟩).1.validationErrors = [1] ∧
    (spatial_polygons_bulk_create (fun _ => true) (fun g => g)
      (.items [badPg, okPg]) ⟨0, 0, []⟩).1.validationErrors = [0] := by
  have h := claim_C3_bulk_single_invalid (fun _ => true) (fun g => g)
    [okPt, badPt] [badPg, okPg] ⟨0, 0, []⟩ ⟨0, 0, []⟩ 1 0
    (by decide) (by decide) (by decide) (by decide) (by decide) badPg_okPg_tail_valid
  exact ⟨h.1.1, h.1.2.2.1, h.2.2.2.1⟩

/-- C4: a nearby query with numeric `lat`, `lng` and a parsed distance `d`
returns exactly the active points within metric distance `d` of the search
point, ordered ascending by that distance, each annotated with the distance
rounded to 2 decimals; a missing or non-numeric `lat`/`lng`, or a
non-numeric `distance`, yields the invalid-parameter error. -/
theorem claim_C4_nearby_query (dist : Pt → Pt → ℚ) (a b d : ℚ) (dP : Param)
    (rows : List PointRec) (hd : floatOfD dP 1000 = some d) :
    (∃ out, spatial_points_nearby dist (.num a) (.num b) dP rows = .ok out ∧
      (∀ r : PointRec, r ∈ out.map Prod.fst ↔
        r ∈ rows ∧ r.is_active = true ∧ dist r.location ⟨b, a⟩ ≤ d) ∧
      (∀ pr ∈ out, pr.2 = round2 (dist pr.1.location ⟨b, a⟩)) ∧
      List.Sorted (· ≤ ·) (out.map (fun pr => dist pr.1.location ⟨b, a⟩))) ∧
    (∀ latP lngP dP2,
      floatOf latP = none ∨ floatOf lngP = none ∨ floatOfD dP2 1000 = none →
      spatial_points_nearby dist latP lngP dP2 rows =
        .error "Invalid parameters. lat, lng, and distance must be numbers") := by
  constructor
  · refine ⟨_, nearby_ok dist a b d dP rows hd, ?_, ?_, ?_⟩
    · exact nearby_mem dist a b d dP rows hd _ (nearby_ok dist a b d dP rows hd)
    · exact nearby_round dist a b d dP rows hd _ (nearby_ok dist a b d dP rows hd)
    · exact nearby_sorted dist a b d dP rows hd _ (nearby_ok dist a b d dP rows hd)
  · intro latP lngP dP2 h
    exact nearby_error dist latP lngP dP2 rows h

/-- C4 witness: the distance hypothesis holds for the defaulted parameter
and the theorem applies with a concrete metric and store. -/
theorem claim_C4_witness :
    floatOfD Param.missing 1000 = some 1000 ∧
    (∃ out, spatial_points_nearby taxiDist (.num 0) (.num 0) .missing
        [inactivePointRow] = .ok out ∧
      (∀ r : PointRec, r ∈ out.map Prod.fst ↔
        r ∈ [inactivePointRow] ∧ r.is_active = true ∧
          taxiDist r.location ⟨0, 0⟩ ≤ 1000) ∧
      (∀ pr ∈ out, pr.2 = round2 (taxiDist pr.1.location ⟨0, 0⟩)) ∧
      List.Sorted (· ≤ ·) (out.map (fun pr => taxiDist pr.1.location ⟨0, 0⟩))) :=
  ⟨rfl, (claim_C4_nearby_query taxiDist 0 0 1000 .missing [inactivePointRow] rfl).1⟩

/-- C6: nearby search is monotone in the radius — every point returned at
distance `d1 ≤ d2` is also returned at `d2` — and within a single result
the sequence of annotated (rounded) distances is non-decreasing. -/
theorem claim_C6_nearby_monotone (dist : Pt → Pt → ℚ) (a b d1 d2 : ℚ)
    (rows : List PointRec) (h12 : d1 ≤ d2) :
    (∀ out1 out2,
      spatial_points_nearby dist (.num a) (.num b) (.num d1) rows = .ok out1 →
      spatial_points_nearby dist (.num a) (.num b) (.num d2) rows = .ok out2 →
      ∀ r, r ∈ out1.map Prod.fst → r ∈ out2.map Prod.fst) ∧
    (∀ dP d out, floatOfD dP 1000 = some d →
      spatial_points_nearby dist (.num a) (.num b) dP rows = .ok out →
      List.Sorted (· ≤ ·) (out.map Prod.snd)) := by
  constructor
  · intro out1 out2 h1 h2 r hr
    have hm1 := nearby_mem dist a b d1 (.num d1) rows rfl out1 h1 r
    have hm2 := nearby_mem dist a b d2 (.num d2) rows rfl out2 h2 r
    rcases hm1.mp hr with ⟨hrow, hact, hdist⟩
    exact hm2.mpr ⟨hrow, hact, le_trans hdist h12⟩
  · intro dP d out hd hout
    rw [nearby_ok dist a b d dP rows hd] at hout
    injection hout with hout
    subst hout
    rw [List.map_map]
    have hsort : List.Sorted distOrd (List.insertionSort distOrd
        ((rows.filter (fun r => decide (dist r.location ⟨b, a⟩ ≤ d) && r.is_active)).map
          (fun r => (r, dist r.location ⟨b, a⟩)))) :=
      List.sorted_insertionSort distOrd _
    unfold List.Sorted
    rw [List.pairwise_map]
    refine hsort.imp ?_
    intro p q hpq
    exact round2_mono hpq

/-- C6 witness: the radius hypothesis `5 ≤ 7` holds and the theorem applies
with a concrete metric and store. -/
theorem claim_C6_witness :
    (5 : ℚ) ≤ 7 ∧
    (∀ out1 out2,
      spatial_points_nearby taxiDist (.num 0) (.num 0) (.num 5) [inactivePointRow] = .ok out1 →
      spatial_points_nearby taxiDist (.num 0) (.num 0) (.num 7) [inactivePointRow] = .ok out2 →
      ∀ r, r ∈ out1.map Prod.fst → r ∈ out2.map Prod.fst) :=
  ⟨by norm_num,
   (claim_C6_nearby_monotone taxiDist 0 0 5 7 [inactivePointRow] (by norm_num)).1⟩

/-- C10: a nearby query with the `distance` parameter omitted behaves
exactly as one with `distance = 1000` (and in particular succeeds when
`lat` and `lng` are numeric), while omitting `lat` or `lng` still fails
with the invalid-parameter error. -/
theorem claim_C10_default_distance (dist : Pt → Pt → ℚ) (latP lngP : Param)
    (rows : List PointRec) :
    spatial_points_nearby dist latP lngP .missing rows =
      spatial_points_nearby dist latP lngP (.num 1000) rows ∧
    (∀ a b : ℚ,
      (spatial_points_nearby dist (.num a) (.num b) .missing rows).isOk = true) ∧
    (∀ dP, spatial_points_nearby dist .missing lngP dP rows =
      .error "Invalid parameters. lat, lng, and distance must be numbers") ∧
    (∀ dP, spatial_points_nearby dist latP .missing dP rows =
      .error "Invalid parameters. lat, lng, and distance must be numbers") := by
  refine ⟨rfl, fun a b => ?_, fun dP => ?_, fun dP => ?_⟩
  · rw [nearby_ok dist a b 1000 .missing rows rfl]
    rfl
  · exact nearby_error dist .missing lngP dP rows (Or.inl rfl)
  · exact nearby_error dist latP .missing dP rows (Or.inr (Or.inl rfl))

/-- C5 counterexample: a deactivated point still appears in the default
(unfiltered) list results, so deactivation does not remove an entity from
the default list as the claim states. -/
theorem claim_C5_counterexample :
    inactivePointRow.is_active = false ∧
    inactivePointRow ∈ spatial_points_list none none [inactivePointRow] := by
  refine ⟨rfl, ?_⟩
  rw [points_list_mem]
  exact ⟨List.mem_singleton.mpr rfl, trivial, trivial⟩

/-- C5 (amended): deactivating an entity removes it from nearby-points
results and from polygons-containing-point results, and `get(id)` on it
still succeeds and returns the record; however the entity still appears in
the default list results — the list endpoint applies no `is_active` filter
unless the query parameter is supplied. -/
theorem claim_C5_deactivation_amended (dist : Pt → Pt → ℚ)
    (contains : Poly → Pt → Bool) (rows : List PointRec) (prows : List PolyRec)
    (r : PointRec) (pg : PolyRec) (hr : r ∈ rows) (hact : r.is_active = false)
    (hids : (rows.map PointRec.id).Nodup) (hpact : pg.is_active = false) :
    (∀ rec : PointRec,
      (applyPointPatch ⟨none, none, some false⟩ rec).is_active = false) ∧
    (∀ latP lngP dP out,
      spatial_points_nearby dist latP lngP dP rows = .ok out →
      r ∉ out.map Prod.fst) ∧
    (∀ latP lngP out,
      spatial_polygons_containing_point contains latP lngP prows = .ok out →
      pg ∉ out) ∧
    get_object_or_404_point r.id rows = some r ∧
    r ∈ spatial_points_list none none rows := by
  refine ⟨fun rec => rfl, ?_, ?_, ?_, ?_⟩
  · intro latP lngP dP out hout hmem
    rcases List.mem_map.mp hmem with ⟨pr, hpr, rfl⟩
    have hactive := nearby_active dist latP lngP dP rows out hout pr hpr
    rw [hact] at hactive
    exact Bool.false_ne_true hactive
  · intro latP lngP out hout hmem
    have hactive := containing_active contains latP lngP prows out hout pg hmem
    rw [hpact] at hactive
    exact Bool.false_ne_true hactive
  · exact find?_point_id rows r hr hids
  · rw [points_list_mem]
    exact ⟨hr, trivial, trivial⟩

/-- C5 witness: the hypotheses hold for a singleton store holding a
deactivated row and the amended theorem applies there. -/
theorem claim_C5_witness :
    get_object_or_404_point inactivePointRow.id [inactivePointRow] =
      some inactivePointRow ∧
    inactivePointRow ∈ spatial_points_list none none [inactivePointRow] :=
  ⟨(claim_C5_deactivation_amended taxiDist (fun _ _ => false) [inactivePointRow]
      [inactivePolyRow] inactivePointRow inactivePolyRow (List.mem_singleton.mpr rfl)
      rfl (by decide) rfl).2.2.2.1,
   (claim_C5_deactivation_amended taxiDist (fun _ _ => false) [inactivePointRow]
      [inactivePolyRow] inactivePointRow inactivePolyRow (List.mem_singleton.mpr rfl)
      rfl (by decide) rfl).2.2.2.2⟩

/-- C7: the summary counts only active points and polygons, reports the m²
total as the arithmetic sum of the stored per-polygon `area` fields of the
active polygons rounded to 2 decimals, reports the km² value as the m² sum
divided by 1,000,000 with its own independent rounding, and reports 0 for
both totals when there is no active polygon. -/
theorem claim_C7_summary (pts : List PointRec) (pgs : List PolyRec) :
    (spatial_analysis_summary pts pgs).total_points =
      (pts.filter (fun r => r.is_active)).length ∧
    (spatial_analysis_summary pts pgs).total_polygons =
      (pgs.filter (fun r => r.is_active)).length ∧
    (spatial_analysis_summary pts pgs).total_polygon_area_sqm =
      round2 (((pgs.filter (fun r => r.is_active)).map (fun r => r.area.getD 0)).sum) ∧
    (spatial_analysis_summary pts pgs).total_polygon_area_sqkm =
      round2 ((((pgs.filter (fun r => r.is_active)).map (fun r => r.area.getD 0)).sum)
        / 1000000) ∧
    (pgs.filter (fun r => r.is_active) = [] →
      (spatial_analysis_summary pts pgs).total_polygon_area_sqm = 0 ∧
      (spatial_analysis_summary pts pgs).total_polygon_area_sqkm = 0) := by
  have hsum := filterMap_area_sum (pgs.filter (fun r => r.is_active))
  refine ⟨rfl, rfl, ?_, ?_, ?_⟩
  · unfold spatial_analysis_summary
    dsimp only []
    rw [hsum]
  · unfold spatial_analysis_summary
    dsimp only []
    rw [hsum]
  · intro hnil
    unfold spatial_analysis_summary
    dsimp only []
    rw [hnil]
    simp [round2]

/-- C7 witness: with no stored polygons the zero-case hypothesis holds and
the totals are 0. -/
theorem claim_C7_witness :
    (spatial_analysis_summary [] []).total_polygon_area_sqm = 0 ∧
    (spatial_analysis_summary [] []).total_polygon_area_sqkm = 0 :=
  (claim_C7_summary [] []).2.2.2.2 rfl

/-- C8: a malformed bulk envelope (not an object, object without the array
field, or field not an array) is rejected as a bad request with nothing
persisted and no per-item processing; a fully valid batch reports total
success (201); a well-formed batch with a failing item reports the distinct
partial-success status (207).  Stated for both bulk endpoints. -/
theorem claim_C8_bulk_envelope (gv : Poly → Bool) (T : Poly → Poly)
    (stp : PointStore) (stg : PolyStore) (l : List RawPoint) (pl : List RawPolygon) :
    (∀ body : ReqBody RawPoint,
      body = .notDict ∨ body = .missingKey ∨ body = .keyNotList →
      (spatial_points_bulk_create body stp).1.status = .badRequest ∧
      (spatial_points_bulk_create body stp).2 = stp) ∧
    ((∀ it ∈ l, pointValid it = true) →
      (spatial_points_bulk_create (.items l) stp).1.status = .allCreated) ∧
    ((∃ it ∈ l, pointValid it = false) →
      (spatial_points_bulk_create (.items l) stp).1.status = .multiStatus) ∧
    (∀ body : ReqBody RawPolygon,
      body = .notDict ∨ body = .missingKey ∨ body = .keyNotList →
      (spatial_polygons_bulk_create gv T body stg).1.status = .badRequest ∧
      (spatial_polygons_bulk_create gv T body stg).2 = stg) ∧
    ((∀ it ∈ pl, polygonValid gv it = true) →
      (spatial_polygons_bulk_create gv T (.items pl) stg).1.status = .allCreated) ∧
    ((∃ it ∈ pl, polygonValid gv it = false) →
      (spatial_polygons_bulk_create gv T (.items pl) stg).1.status = .multiStatus) := by
  refine ⟨?_, ?_, ?_, ?_, ?_, ?_⟩
  · rintro body (rfl | rfl | rfl) <;> exact ⟨rfl, rfl⟩
  · intro hv
    have hnil : invalidIdxs pointValid l 0 = [] :=
      (invalidIdxs_eq_nil pointValid l 0).mpr hv
    unfold spatial_points_bulk_create
    dsimp only []
    rw [bulkLoop_eq]
    dsimp only []
    rw [hnil]
    rfl
  · rintro ⟨it, hit, hinv⟩
    have hne : invalidIdxs pointValid l 0 ≠ [] := by
      intro he
      have hall := (invalidIdxs_eq_nil pointValid l 0).mp he it hit
      rw [hinv] at hall
      exact Bool.false_ne_true hall
    unfold spatial_points_bulk_create
    dsimp only []
    rw [bulkLoop_eq]
    dsimp only []
    cases hcase : invalidIdxs pointValid l 0 with
    | nil => exact absurd hcase hne
    | cons x xs => rfl
  · rintro body (rfl | rfl | rfl) <;> exact ⟨rfl, rfl⟩
  · intro hv
    have hnil : invalidIdxs (polygonValid gv) pl 0 = [] :=
      (invalidIdxs_eq_nil (polygonValid gv) pl 0).mpr hv
    unfold spatial_polygons_bulk_create
    dsimp only []
    rw [bulkLoop_eq]
    dsimp only []
    rw [hnil]
    rfl
  · rintro ⟨it, hit, hinv⟩
    have hne : invalidIdxs (polygonValid gv) pl 0 ≠ [] := by
      intro he
      have hall := (invalidIdxs_eq_nil (polygonValid gv) pl 0).mp he it hit
      rw [hinv] at hall
      exact Bool.false_ne_true hall
    unfold spatial_polygons_bulk_create
    dsimp only []
    rw [bulkLoop_eq]
    dsimp only []
    cases hcase : invalidIdxs (polygonValid gv) pl 0 with
    | nil => exact absurd hcase hne
    | cons x xs => rfl

/-- C8 witness: the three statuses occur on concrete requests. -/
theorem claim_C8_witness :
    (spatial_points_bulk_create .notDict ⟨0, 0, []⟩).1.status = .badRequest ∧
    (spatial_points_bulk_create (.items [okPt]) ⟨0, 0, []⟩).1.status = .allCreated ∧
    (spatial_points_bulk_create (.items [badPt]) ⟨0, 0, []⟩).1.status = .multiStatus := by
  refine ⟨?_, ?_, ?_⟩
  · exact ((claim_C8_bulk_envelope (fun _ => true) (fun g => g) ⟨0, 0, []⟩ ⟨0, 0, []⟩
      [] []).1 .notDict (Or.inl rfl)).1
  · exact (claim_C8_bulk_envelope (fun _ => true) (fun g => g) ⟨0, 0, []⟩ ⟨0, 0, []⟩
      [okPt] []).2.1 (by decide)
  · exact (claim_C8_bulk_envelope (fun _ => true) (fun g => g) ⟨0, 0, []⟩ ⟨0, 0, []⟩
      [badPt] []).2.2.1 ⟨badPt, by decide, by decide⟩

/-- C9: for both list endpoints, the `name` filter keeps exactly the rows
whose name contains the given non-empty string case-insensitively, the
`is_active` filter keeps exactly the rows whose flag matches the given
boolean (encoded as the string compared against "true"), the polygon
`min_area`/`max_area` filters are inclusive bounds on the stored `area`
applied only when the bound is numeric (missing, empty or non-numeric
bounds are ignored and the request still succeeds), results are ordered by
`created_at` descending, and page sizes default to 20 and are capped at
100. -/
theorem claim_C9_list_filters (nameP activeP : Option String) (minP maxP : Param)
    (rows : List PointRec) (prows : List PolyRec) :
    (∀ r : PointRec, r ∈ spatial_points_list nameP activeP rows ↔
      r ∈ rows ∧
      (match nameP with
       | some n => n = "" ∨ icontains r.name n = true
       | none => True) ∧
      (match activeP with
       | some a => r.is_active = (a.toLower == "true")
       | none => True)) ∧
    (∀ r : PolyRec, r ∈ spatial_polygons_list nameP activeP minP maxP prows ↔
      r ∈ prows ∧
      (match nameP with
       | some n => n = "" ∨ icontains r.name n = true
       | none => True) ∧
      (match activeP with
       | some a => r.is_active = (a.toLower == "true")
       | none => True) ∧
      (match minP with
       | .num q => ∃ a, r.area = some a ∧ q ≤ a
       | _ => True) ∧
      (match maxP with
       | .num q => ∃ a, r.area = some a ∧ a ≤ q
       | _ => True)) ∧
    List.Sorted ptCreatedDesc (spatial_points_list nameP activeP rows) ∧
    List.Sorted pgCreatedDesc (spatial_polygons_list nameP activeP minP maxP prows) ∧
    getPageSize none = 20 ∧
    (∀ ps, getPageSize ps ≤ 100) ∧
    (∀ n, 0 < n → n ≤ 100 → getPageSize (some n) = n) ∧
    (∀ (qs : List PolyRec) (page ps : ℕ),
      (pageSlice qs page (getPageSize (some ps))).length ≤ getPageSize (some ps)) := by
  refine ⟨points_list_mem nameP activeP rows,
    polygons_list_mem nameP activeP minP maxP prows,
    points_list_sorted nameP activeP rows,
    polygons_list_sorted nameP activeP minP maxP prows,
    rfl, ?_, ?_, ?_⟩
  · intro ps
    cases ps with
    | none => norm_num [getPageSize]
    | some n =>
      unfold getPageSize
      dsimp only []
      by_cases h : n = 0
      · rw [if_pos h]
        norm_num
      · rw [if_neg h]
        exact min_le_right n 100
  · intro n h1 h2
    unfold getPageSize
    dsimp only []
    rw [if_neg (Nat.pos_iff_ne_zero.mp h1)]
    exact min_eq_left h2
  · intro qs page ps
    unfold pageSlice
    exact List.length_take_le _ _

/-- C9 witness: the page-size conclusions at concrete request values. -/
theorem claim_C9_witness :
    getPageSize none = 20 ∧ getPageSize (some 500) ≤ 100 ∧
    getPageSize (some 50) = 50 := by
  have h := claim_C9_list_filters none none .missing .missing [] []
  exact ⟨h.2.2.2.2.1, h.2.2.2.2.2.1 (some 500),
    h.2.2.2.2.2.2.1 50 (by norm_num) (by norm_num)⟩

end SpatialApp
